import Mathlib

/-!
Shallow embedding of the box-contents spreadsheet pipeline
(src/webversion.py): cell values, identifier normalization,
quantity coercion, row cleaning, pivot aggregation, bold-cell
carton-weight extraction, dimension-pattern scanning, and the
end-to-end run with its error behavior.

Numeric cell values are exact rationals, represented by the
executable normalized-fraction type `Frac` below (a stand-in for ℚ
whose operations reduce inside the kernel, so that concrete runs of
the pipeline can be checked by `decide`).
-/

set_option maxRecDepth 8192

/-- Euclidean gcd with an explicit structural fuel argument, so that
the kernel can evaluate it. With fuel at least a + b + 1 it computes
Nat.gcd a b. -/
def gcdF : Nat → Nat → Nat → Nat
  | 0, _, b => b
  | _ + 1, 0, b => b
  | f + 1, a + 1, b => gcdF f (b % (a + 1)) (a + 1)

/-- Gcd of two naturals via `gcdF` with sufficient fuel. -/
def natGcd (a b : Nat) : Nat := gcdF (a + b + 1) a b

/-- An exact rational number: integer numerator over positive natural
denominator. All values produced by the embedding are built through
`mkFrac`, which reduces to lowest terms, so structural equality on
pipeline-produced values coincides with value equality. -/
structure Frac where
  num : Int
  den : Nat
deriving DecidableEq, Repr

/-- Build a reduced fraction (denominator 0 is mapped to 0, a case the
pipeline never produces). -/
def mkFrac (n : Int) (d : Nat) : Frac :=
  if d = 0 then ⟨0, 1⟩
  else
    let g := natGcd n.natAbs d
    ⟨n.tdiv (g : Int), d / g⟩

/-- Addition of fractions, renormalizing. -/
def Frac.add (a b : Frac) : Frac :=
  mkFrac (a.num * (b.den : Int) + b.num * (a.den : Int)) (a.den * b.den)

instance : Add Frac := ⟨Frac.add⟩

instance : Zero Frac := ⟨⟨0, 1⟩⟩

instance (n : Nat) : OfNat Frac n := ⟨⟨n, 1⟩⟩

/-- Negation. -/
def Frac.neg (a : Frac) : Frac := ⟨-a.num, a.den⟩

/-- Multiply a fraction by an integer power of ten (used for the
exponent part of numeric literals). -/
def Frac.mulPow10 (a : Frac) (e : Int) : Frac :=
  if 0 ≤ e then mkFrac (a.num * (10 : Int) ^ e.toNat) a.den
  else mkFrac a.num (a.den * 10 ^ (-e).toNat)

/-- Is the fraction integral (denominator one)? -/
def Frac.isInt (a : Frac) : Bool := a.den == 1

/-- A spreadsheet/table cell value as seen by the pipeline:
a number, a text string, or null (NaN / missing). This is the
tagged variant the code manipulates dynamically. -/
inductive CellVal where
  | num (q : Frac)
  | text (s : String)
  | null
deriving DecidableEq, Repr

/-- Whether a value is null (pandas NaN). -/
def CellVal.isNull : CellVal → Bool
  | .null => true
  | _ => false

/-- Fractional decimal digits of r/d, at most `fuel` digits, stopping
when the remainder hits zero (so trailing zeros are dropped, as in
Python float repr of terminating decimals). -/
def fracDigits : Nat → Nat → Nat → List Char
  | 0, _, _ => []
  | _ + 1, 0, _ => []
  | fuel + 1, r, d => Char.ofNat (48 + (r * 10) / d) :: fracDigits fuel ((r * 10) % d) d

/-- Decimal rendering of a non-integer rational, approximating Python
str() of the corresponding float (sign, integer part, dot, fractional
digits with trailing zeros dropped, truncated at 17 digits). -/
def ratDecimalString (q : Frac) : String :=
  let sign := if q.num < 0 then "-" else ""
  let a := q.num.natAbs
  let d := q.den
  sign ++ toString (a / d) ++ "." ++ String.mk (fracDigits 17 (a % d) d)

/-- Python str() of a cell value, as produced by astype(str) on a
float-typed column and by str(row[col]) in the dimension scan: text
is itself, null renders as "nan", an integer-valued number renders
with the ".0" float artifact, other numbers render as decimals. -/
def pyStr : CellVal → String
  | .text s => s
  | .null => "nan"
  | .num q => if q.den = 1 then toString q.num ++ ".0" else ratDecimalString q

/-- Does the character list end in the two characters ".0"? -/
def endsWithDot0 (l : List Char) : Bool :=
  match l.reverse with
  | c0 :: c1 :: _ => c0 == '0' && c1 == '.'
  | _ => false

/-- Remove one trailing ".0" if present: the regex replacement
str.replace with pattern dot-zero-dollar (line 38 of the source). -/
def stripDot0 (s : String) : String :=
  if endsWithDot0 s.data then String.mk (s.data.dropLast.dropLast) else s

/-- Remove every "+" character: str.replace("+", "", regex=False)
(line 39 of the source). -/
def removePlus (s : String) : String :=
  String.mk (s.data.filter (fun c => c != '+'))

/-- Python str.zfill(w): left-pad with zeros to width w, keeping a
leading sign character in front of the inserted zeros (line 40). -/
def zfill (s : String) (w : Nat) : String :=
  if w ≤ s.length then s
  else
    let c := s.data.headD '0'
    if c = '+' ∨ c = '-' then
      String.mk (c :: (List.replicate (w - s.length) '0' ++ s.data.tail))
    else
      String.mk (List.replicate (w - s.length) '0' ++ s.data)

/-- The identifier value after to-text, trailing-".0" strip and "+"
removal, before padding (lines 36-39 of the source). -/
def strippedUPC (v : CellVal) : String :=
  removePlus (stripDot0 (pyStr v))

/-- Full UPC normalization of lines 35-41 of the source:
astype(str), strip trailing ".0", remove "+", zfill(12). -/
def normalizeUPC (v : CellVal) : String :=
  zfill (strippedUPC v) 12

/-- Digits of a numeral, most significant first, to a Nat. -/
def digitsToNat (ds : List Char) : Nat :=
  ds.foldl (fun n c => n * 10 + (c.toNat - 48)) 0

/-- Python float(str) / pandas to_numeric on a string, restricted to
the decimal forms the pipeline meets: optional surrounding whitespace,
optional sign, digits with an optional single dot (at least one digit
overall), optional e/E exponent with optional sign. Underscore
separators and the inf/nan spellings are out of scope. Returns none
exactly when Python float() raises ValueError on such inputs. -/
def parsePyFloat (s : String) : Option Frac :=
  let l := s.data.dropWhile Char.isWhitespace
  let signRes : Bool × List Char :=
    match l with
    | '-' :: rest => (true, rest)
    | '+' :: rest => (false, rest)
    | _ => (false, l)
  let neg := signRes.1
  let l1 := signRes.2
  let ip := l1.takeWhile Char.isDigit
  let l2 := l1.dropWhile Char.isDigit
  let fpRes : List Char × List Char :=
    match l2 with
    | '.' :: rest => (rest.takeWhile Char.isDigit, rest.dropWhile Char.isDigit)
    | _ => ([], l2)
  let fp := fpRes.1
  let l3 := fpRes.2
  if ip.isEmpty && fp.isEmpty then none
  else
    let mant : Frac :=
      mkFrac ((if neg then -1 else 1) * (digitsToNat ip * 10 ^ fp.length + digitsToNat fp : Nat))
        (10 ^ fp.length)
    let expRes : Option (Int × List Char) :=
      match l3 with
      | 'e' :: rest =>
        match rest with
        | '-' :: r2 =>
          let eds := r2.takeWhile Char.isDigit
          if eds.isEmpty then none else some (-(digitsToNat eds : Int), r2.dropWhile Char.isDigit)
        | '+' :: r2 =>
          let eds := r2.takeWhile Char.isDigit
          if eds.isEmpty then none else some ((digitsToNat eds : Int), r2.dropWhile Char.isDigit)
        | _ =>
          let eds := rest.takeWhile Char.isDigit
          if eds.isEmpty then none else some ((digitsToNat eds : Int), rest.dropWhile Char.isDigit)
      | 'E' :: rest =>
        match rest with
        | '-' :: r2 =>
          let eds := r2.takeWhile Char.isDigit
          if eds.isEmpty then none else some (-(digitsToNat eds : Int), r2.dropWhile Char.isDigit)
        | '+' :: r2 =>
          let eds := r2.takeWhile Char.isDigit
          if eds.isEmpty then none else some ((digitsToNat eds : Int), r2.dropWhile Char.isDigit)
        | _ =>
          let eds := rest.takeWhile Char.isDigit
          if eds.isEmpty then none else some ((digitsToNat eds : Int), rest.dropWhile Char.isDigit)
      | _ => some (0, l3)
    match expRes with
    | none => none
    | some (e, rest) =>
      if (rest.dropWhile Char.isWhitespace).isEmpty then some (mant.mulPow10 e)
      else none

/-- A parsed numeric value as the float64-based pandas pipeline sees
it: a finite value (kept exact) or one of the two infinities. NaN is
represented one level up, as the none of the coercion. -/
inductive PyNum where
  | fin (q : Frac)
  | pinf
  | ninf
deriving DecidableEq, Repr

/-- The exact overflow threshold of IEEE float64 under
round-to-nearest-even: a decimal literal whose exact value has
magnitude at least 2^1024 - 2^970 reads as infinity, anything
smaller stays finite. -/
def floatOverflowNum : Nat := 2 ^ 1024 - 2 ^ 970

/-- Classify an exact parsed value as the float64 it becomes: finite,
or an overflow to one of the infinities (e.g. the literal "1e400"). -/
def floatOfFrac (q : Frac) : PyNum :=
  if floatOverflowNum * q.den ≤ q.num.natAbs then
    (if q.num < 0 then .ninf else .pinf)
  else .fin q

/-- ASCII lowercasing for the case-insensitive infinity spellings. -/
def toLowerAscii (c : Char) : Char :=
  if 'A' ≤ c ∧ c ≤ 'Z' then Char.ofNat (c.toNat + 32) else c

/-- The non-finite spellings accepted by Python float() and the
pandas numeric parser: optional surrounding whitespace, optional
sign, then "inf" or "infinity" in any case. -/
def parseInfSpelling (s : String) : Option PyNum :=
  let l := ((s.data.dropWhile Char.isWhitespace).reverse.dropWhile Char.isWhitespace).reverse
  let signRes : Bool × List Char :=
    match l with
    | '-' :: rest => (true, rest)
    | '+' :: rest => (false, rest)
    | _ => (false, l)
  let w := signRes.2.map toLowerAscii
  if w = ['i', 'n', 'f'] ∨ w = ['i', 'n', 'f', 'i', 'n', 'i', 't', 'y'] then
    some (if signRes.1 then .ninf else .pinf)
  else none

/-- pandas to_numeric(errors="coerce") on a single cell: numbers pass
through, null stays NaN (none), text is parsed as a Python number -
finite, infinite by overflow, or an explicit infinity spelling - and
anything else is coerced to NaN (lines 42-44 of the source). -/
def toNumericCoerce : CellVal → Option PyNum
  | .num q => some (floatOfFrac q)
  | .null => none
  | .text s =>
    match parsePyFloat s with
    | some q => some (floatOfFrac q)
    | none => parseInfSpelling s

/-- Integer conversion of a finite value: truncation toward zero. -/
def truncToInt (q : Frac) : Int :=
  q.num.tdiv (q.den : Int)

/-- The Sku Units transform of lines 42-46 on one cell: to_numeric
with coercion, fillna(0), astype(int). A NaN is filled with 0 and a
finite value truncates exactly; a non-finite value makes astype(int)
raise IntCastingNaNError, which nothing catches. (Finite values
beyond the int64 range wrap in numpy rather than raise; their exact
truncation here is a deliberate simplification outside every claim.) -/
def coerceQty (v : CellVal) : Except String Int :=
  match toNumericCoerce v with
  | none => .ok 0
  | some (.fin q) => .ok (truncToInt q)
  | some .pinf => .error "IntCastingNaNError"
  | some .ninf => .error "IntCastingNaNError"

/-- Map a fallible function over a list, stopping at the first
error. -/
def mapExcept {α β : Type} (f : α → Except String β) : List α → Except String (List β)
  | [] => .ok []
  | a :: l =>
    match f a with
    | .error e => .error e
    | .ok b =>
      match mapExcept f l with
      | .error e => .error e
      | .ok bs => .ok (b :: bs)

/-- str.strip(): remove leading and trailing whitespace. -/
def trimStr (s : String) : String :=
  String.mk (((s.data.dropWhile Char.isWhitespace).reverse.dropWhile Char.isWhitespace).reverse)

/-- Python str.split(sep) for a one-character separator: the pieces
between occurrences of the separator, keeping empty pieces. -/
def splitChar (c : Char) : List Char → List (List Char)
  | [] => [[]]
  | x :: rest =>
    if x = c then [] :: splitChar c rest
    else
      match splitChar c rest with
      | [] => [[x]]
      | h :: t => (x :: h) :: t

/-- The loaded main table: column names (as read, then trimmed by the
loader) and rows of cell values in column order. -/
structure Table where
  cols : List String
  rows : List (List CellVal)
deriving DecidableEq, Repr

/-- Column-name trimming applied right after the read
(line 23 of the source). -/
def trimCols (t : Table) : Table :=
  { t with cols := t.cols.map (fun c => trimStr c) }

/-- Value of a row at a named column (null if the column is absent or
the row is short). Duplicate column names are unsupported, as in the
source; the first match wins. -/
def getCell (t : Table) (row : List CellVal) (c : String) : CellVal :=
  match t.cols.findIdx? (fun s => s == c) with
  | some i => row.getD i CellVal.null
  | none => CellVal.null

/-- The three required columns (line 27 of the source). -/
def requiredColumns : List String := ["UPC", "Box X", "Sku Units"]

/-- Required columns absent from the (trimmed) table, in the order of
requiredColumns (line 28 of the source). -/
def missingColsOf (t : Table) : List String :=
  requiredColumns.filter (fun c => !(t.cols.contains c))

/-- A cleaned row: normalized identifier, raw box value (grouping key),
coerced integer quantity. -/
structure CleanRecord where
  upc : String
  box : CellVal
  qty : Int
deriving DecidableEq, Repr

/-- Rows surviving dropna(subset=["UPC", "Sku Units"]) (line 34):
rows whose identifier and quantity cells are both non-null. The box
cell may be null. -/
def keptRows (t : Table) : List (List CellVal) :=
  t.rows.filter (fun r => !(getCell t r "UPC").isNull && !(getCell t r "Sku Units").isNull)

/-- CleanRecord built from one kept row (lines 35-49), on the run
that survives the integer cast: when `coerceQty` errors no record
exists at all (the cast aborts the whole cleaning, see
`cleanRowsE`), so the 0 of the error branch is never the quantity of
a produced record. -/
def mkRecord (t : Table) (row : List CellVal) : CleanRecord :=
  { upc := normalizeUPC (getCell t row "UPC")
    box := getCell t row "Box X"
    qty := (coerceQty (getCell t row "Sku Units")).toOption.getD 0 }

/-- The full CleanRecord set df_clean of a successful cleaning, in
input order (lines 34-49). -/
def cleanRows (t : Table) : List CleanRecord :=
  (keptRows t).map (mkRecord t)

/-- The cleaning of lines 34-49 with its failure path: astype(int)
raises IntCastingNaNError when any kept row carries a non-finite
coerced quantity (pandas casts the column at once; aborting at the
first offending cell is observationally the same, since the error
names no position), and otherwise produces the CleanRecord set. -/
def cleanRowsE (t : Table) : Except String (List CleanRecord) :=
  mapExcept
    (fun row =>
      match coerceQty (getCell t row "Sku Units") with
      | .error e => .error e
      | .ok q => .ok { upc := normalizeUPC (getCell t row "UPC")
                       box := getCell t row "Box X"
                       qty := q })
    (keptRows t)

/-- total_qty = df_clean["Qty"].sum() (line 63). -/
def total_qty (recs : List CleanRecord) : Int :=
  (recs.map (fun r => r.qty)).sum

/-- total_boxes = df_clean["Box Number"].nunique() (line 64): the
number of distinct non-null box values (pandas nunique drops NaN). -/
def total_boxes (recs : List CleanRecord) : Nat :=
  (((recs.map (fun r => r.box)).filter (fun v => !v.isNull)).dedup).length

/-- Records entering the pivot: pandas pivot_table silently drops rows
whose grouping key (Box Number) is NaN (lines 52-59). -/
def pivotRecs (recs : List CleanRecord) : List CleanRecord :=
  recs.filter (fun r => !r.box.isNull)

/-- Distinct identifiers forming the pivot rows (pandas sorts them;
the order is irrelevant to every property stated below, so the
first-encounter order of dedup is used). -/
def pivotUPCs (recs : List CleanRecord) : List String :=
  ((pivotRecs recs).map (fun r => r.upc)).dedup

/-- Distinct non-null box values forming the pivot columns. -/
def pivotBoxes (recs : List CleanRecord) : List CellVal :=
  ((pivotRecs recs).map (fun r => r.box)).dedup

/-- One pivot cell before display transforms: the summed quantity over
records with the given identifier and box (aggfunc="sum",
fill_value=0 for absent pairs). -/
def pivotCellSum (recs : List CleanRecord) (u : String) (b : CellVal) : Int :=
  (((pivotRecs recs).filter (fun r => r.upc == u && r.box == b)).map (fun r => r.qty)).sum

/-- The displayed pivot cell after replace(0, "") (line 60): a zero
sum renders as blank (none). -/
def pivotDisplayCell (recs : List CleanRecord) (u : String) (b : CellVal) : Option Int :=
  if pivotCellSum recs u b = 0 then none else some (pivotCellSum recs u b)

/-- The displayed pivot table: one row per distinct identifier, one
cell per distinct box. -/
def pivotDisplayTable (recs : List CleanRecord) : List (String × List (Option Int)) :=
  (pivotUPCs recs).map (fun u => (u, (pivotBoxes recs).map (fun b => pivotDisplayCell recs u b)))

/-- Sum of all numeric cells of the displayed pivot (blank cells
count as nothing). -/
def sumPivotDisplayed (recs : List CleanRecord) : Int :=
  ((pivotUPCs recs).map
    (fun u => ((pivotBoxes recs).map (fun b => (pivotDisplayCell recs u b).getD 0)).sum)).sum

/-- A cell of the auxiliary sheet: its (cached) value and whether its
font is bold. -/
structure SheetCell where
  value : CellVal
  bold : Bool
deriving DecidableEq, Repr

/-- The auxiliary sheet: rows of styled cells. -/
def SheetData : Type := List (List SheetCell)
deriving instance DecidableEq for SheetData

/-- The 7th-column cell of a row. openpyxl iter_rows(max_col=7) pads
short rows with empty (non-bold, valueless) cells, so index 6 always
exists (line 72 of the source). -/
def cellAt7 (row : List SheetCell) : SheetCell :=
  row.getD 6 ⟨CellVal.null, false⟩

/-- The collected value of a bold numeric cell: the condition
cell.font.bold and isinstance(cell.value, (int, float)) of line 73. -/
def boldNumericValue (c : SheetCell) : Option Frac :=
  match c.value with
  | .num q => if c.bold then some q else none
  | _ => none

/-- The bold numeric values found in the 7th column, in sheet row
order: the collection loop of lines 71-74. -/
def collectBoldCol7 (sheet : SheetData) : List Frac :=
  sheet.filterMap (fun row => boldNumericValue (cellAt7 row))

/-- carton_weights after the scan and the skip-last step of lines
67-76: drop the last collected value when the collection is
non-empty. -/
def cartonWeightsFromSheet (sheet : SheetData) : List Frac :=
  let ws := collectBoldCol7 sheet
  if ws.isEmpty then ws else ws.dropLast

/-- Written from the words of the specification, for comparison with
`cartonWeightsFromSheet`: collect the values of 7th-column cells
whose font is bold and whose value is numeric, in sheet order, then
drop exactly the last collected value. -/
def specCartonWeights (sheet : SheetData) : List Frac :=
  (collectBoldCol7 sheet).dropLast

/-- An uploaded workbook after a successful spreadsheet parse: the
main table (as loaded with header offset 10) and the named auxiliary
sheets. -/
structure Workbook where
  main : Table
  sheets : List (String × SheetData)
deriving DecidableEq

/-- Sheet lookup wb_input["Page1_1"] (line 70). -/
def lookupSheet (wb : Workbook) (name : String) : Option SheetData :=
  (wb.sheets.find? (fun p => p.1 == name)).map (fun p => p.2)

/-- The carton-weight extraction of lines 67-79 including its
try/except: a missing "Page1_1" sheet degrades to the empty list
instead of raising. -/
def extractWeights (wb : Workbook) : List Frac :=
  match lookupSheet wb "Page1_1" with
  | none => []
  | some s => cartonWeightsFromSheet s

/-- Word characters of the regex escape backslash-b boundary
(ASCII approximation of the Python re word class). -/
def isWordChar (c : Char) : Bool := c.isAlphanum || c = '_'

/-- Consume a digit group of the pattern: the maximal digit run at the
head, required to be 1..maxLen long. Because each group of the
dimension pattern is followed by a non-digit (a dot, an X, or a word
boundary), greedy matching with backtracking accepts exactly when the
full maximal run is within the bound, so this deterministic reading
is equivalent to the regex. -/
def numGroup (maxLen : Nat) (l : List Char) : Option (List Char) :=
  let ds := l.takeWhile Char.isDigit
  if 1 ≤ ds.length && ds.length ≤ maxLen then some (l.dropWhile Char.isDigit) else none

/-- Consume one expected literal character. -/
def litChar (c : Char) : List Char → Option (List Char)
  | x :: rest => if x = c then some rest else none
  | [] => none

/-- re.match of the dimension pattern of lines 87-89 (three decimal
numbers, 1-3 integer digits and 1-2 fraction digits each, joined by a
literal X, starting at a word boundary at position 0 and ending at a
word boundary): a prefix match, anything may follow the final
boundary. -/
def matchDim (s : String) : Bool :=
  (do
    let l ← numGroup 3 s.data
    let l ← litChar '.' l
    let l ← numGroup 2 l
    let l ← litChar 'X' l
    let l ← numGroup 3 l
    let l ← litChar '.' l
    let l ← numGroup 2 l
    let l ← litChar 'X' l
    let l ← numGroup 3 l
    let l ← litChar '.' l
    let l ← numGroup 2 l
    match l with
    | [] => some ()
    | c :: _ => if isWordChar c then none else some ()
  ).isSome

/-- Processing of one cell of the dimension scan (lines 93-98): a cell
whose text matches the pattern is split on every "X" of the whole
text and the three parts are parsed as floats. A split yielding a
number of parts other than three (unpacking error) or a part that
float() rejects raises a ValueError, reported here as the offending
text. A non-matching cell contributes nothing. -/
def parseDimCell (s : String) : Option (Except String (Frac × Frac × Frac)) :=
  if matchDim s then
    some
      (match (splitChar 'X' s.data).map String.mk with
       | [a, b, c] =>
         match parsePyFloat a, parsePyFloat b, parsePyFloat c with
         | some x, some y, some z => .ok (x, y, z)
         | _, _, _ => .error s
       | _ => .error s)
  else none

/-- The dimension scan of lines 90-98: every cell of the full table in
row-major order (rows in order, then columns in the table's column
order), textified and matched. The first ValueError aborts the scan
(the loop has no try/except), modelled as an error result. -/
def scanDims (t : Table) : Except String (List (Frac × Frac × Frac)) :=
  t.rows.flatten.foldl
    (fun acc v =>
      match acc with
      | .error e => .error e
      | .ok ds =>
        match parseDimCell (pyStr v) with
        | none => .ok ds
        | some (.ok d) => .ok (ds ++ [d])
        | some (.error e) => .error e)
    (.ok [])

/-- The data content of the produced output file and preview: the
three tables, the two scalar totals, the weight sequence, the
displayed weight total, and the value written in the "Box
Dimensions" totals footer (none when the dimension table and hence
the sheet and its footer are absent). -/
structure RunOutput where
  boxContents : List CleanRecord
  pivotRows : List (String × List (Option Int))
  totalQty : Int
  totalBoxes : Nat
  weights : List Frac
  displayedTotalWeight : Frac
  dims : List (Frac × Frac × Frac)
  dimFooterTotal : Option Frac
deriving DecidableEq, Repr

/-- Errors that abort a run with no output file. -/
inductive RunError where
  | loadError
  | schemaError (missing : List String)
  | qtyCastError (msg : String)
  | dimValueError (cell : String)
deriving DecidableEq, Repr

/-- Assembly of all computed outputs for a workbook whose dimension
scan returned `dims`: cleaning (lines 34-49), pivot (lines 52-60),
totals (lines 63-64), carton weights (lines 67-79), the displayed
total total_carton_weight + 35 (lines 81-84, shown at line 230), and
the Box Dimensions footer value (lines 185-203), which re-sums the
numeric entries of the written Carton Weight column - the weight
sequence truncated to the number of dimension rows - and adds 35. -/
def assembleOutput (wb : Workbook) (dims : List (Frac × Frac × Frac)) : RunOutput :=
  let t := trimCols wb.main
  let recs := cleanRows t
  let ws := extractWeights wb
  { boxContents := recs
    pivotRows := pivotDisplayTable recs
    totalQty := total_qty recs
    totalBoxes := total_boxes recs
    weights := ws
    displayedTotalWeight := ws.sum + 35
    dims := dims
    dimFooterTotal :=
      if dims.isEmpty then none else some ((ws.take dims.length).sum + 35) }

/-- The processing part of the run after the schema gate, with its
two uncaught abort paths in source order: the IntCastingNaNError of
the quantity cast (line 45) aborts first, then an uncaught
ValueError of the dimension scan aborts the run before any file is
written (the scan runs after the totals in the source, but nothing
is emitted before it finishes, so the observable behavior is
identical); otherwise the run assembles its outputs. -/
def runChecked (wb : Workbook) : Except RunError RunOutput :=
  match cleanRowsE (trimCols wb.main) with
  | .error e => .error (.qtyCastError e)
  | .ok _ =>
    match scanDims (trimCols wb.main) with
    | .error e => .error (.dimValueError e)
    | .ok dims => .ok (assembleOutput wb dims)

/-- The whole run on an upload: a file that fails to parse is a load
error (lines 20-25); then the missing-columns hard stop (lines
27-31); then the processing pipeline. -/
def runPipeline (input : Option Workbook) : Except RunError RunOutput :=
  match input with
  | none => .error .loadError
  | some wb =>
    if missingColsOf (trimCols wb.main) = [] then runChecked wb
    else .error (.schemaError (missingColsOf (trimCols wb.main)))

deriving instance DecidableEq for Except

/-- A workbook with the required columns whose table holds the cell
text "1.00X2.00X3.00-4": the text matches the dimension pattern (the
final word boundary sits before the dash), so the scan splits it on
"X" and calls float on the part "3.00-4", which raises. -/
def wbDimError : Workbook :=
  { main := { cols := ["UPC", "Box X", "Sku Units"]
              rows := [[.text "1.00X2.00X3.00-4", .num ⟨1, 1⟩, .num ⟨2, 1⟩]] }
    sheets := [] }

/-- A workbook with the required columns whose single surviving row
has the quantity text "inf": to_numeric coerces it to infinity,
fillna leaves it, and astype(int) raises IntCastingNaNError
uncaught, aborting the run before the dimension scan. -/
def wbInfQty : Workbook :=
  { main := { cols := ["UPC", "Box X", "Sku Units"]
              rows := [[.text "1", .num ⟨1, 1⟩, .text "inf"]] }
    sheets := [] }

/-- A benign workbook with the required columns, no dimension matches
and no auxiliary sheet. -/
def wbPlain : Workbook :=
  { main := { cols := ["UPC", "Box X", "Sku Units"]
              rows := [[.text "1", .num ⟨1, 1⟩, .num ⟨2, 1⟩]] }
    sheets := [] }

/-- An auxiliary-sheet row holding a bold integer weight in its 7th
column. -/
def weightRow (q : Int) : List SheetCell :=
  [⟨.null, false⟩, ⟨.null, false⟩, ⟨.null, false⟩, ⟨.null, false⟩,
   ⟨.null, false⟩, ⟨.null, false⟩, ⟨.num ⟨q, 1⟩, true⟩]

/-- A workbook with three bold weights 10, 20, 30 (so the extracted
weight sequence is [10, 20]) but a single dimension triple: the
written Carton Weight column holds only the weight 10. -/
def wbMoreWeights : Workbook :=
  { main := { cols := ["UPC", "Box X", "Sku Units", "Info"]
              rows := [[.text "1", .num ⟨1, 1⟩, .text "5", .text "1.00X2.00X3.00"]] }
    sheets := [("Page1_1", [weightRow 10, weightRow 20, weightRow 30])] }

/-- A workbook with two bold weights 10, 99 (extracted sequence [10])
and a single dimension triple, so the weight sequence fits into the
dimension table. -/
def wbFittingWeights : Workbook :=
  { main := { cols := ["UPC", "Box X", "Sku Units"]
              rows := [[.text "1.00X2.00X3.00", .num ⟨1, 1⟩, .text "5"]] }
    sheets := [("Page1_1", [weightRow 10, weightRow 99])] }

/-- A workbook lacking exactly the "Sku Units" column. -/
def wbNoSkuUnits : Workbook :=
  { main := { cols := ["UPC", "Box X"]
              rows := [[.text "1", .num ⟨1, 1⟩]] }
    sheets := [] }

/-- A table whose single row has a null box cell but non-null
identifier and quantity cells. -/
def tblNullBox : Table :=
  { cols := ["UPC", "Box X", "Sku Units"]
    rows := [[.text "1", .null, .text "5"]] }

/-- A table with one fully populated row, used to instantiate
row-quantified statements. -/
def tblOneRow : Table :=
  { cols := ["UPC", "Box X", "Sku Units"]
    rows := [[.text "7", .num ⟨1, 1⟩, .text "5"]] }

/-- A small auxiliary sheet: bold weights 10 and 20 in the 7th column,
a non-bold numeric cell and a bold text cell that must both be
ignored. -/
def sheetSmall : SheetData :=
  [weightRow 10,
   [⟨.null, false⟩, ⟨.null, false⟩, ⟨.null, false⟩, ⟨.null, false⟩,
    ⟨.null, false⟩, ⟨.null, false⟩, ⟨.num ⟨7, 1⟩, false⟩],
   [⟨.null, false⟩, ⟨.null, false⟩, ⟨.null, false⟩, ⟨.null, false⟩,
    ⟨.null, false⟩, ⟨.null, false⟩, ⟨.text "x", true⟩],
   weightRow 20]

lemma string_mk_data (s : String) : String.mk s.data = s := by
  cases s
  rfl

lemma string_length_mk (l : List Char) : (String.mk l).length = l.length := rfl

lemma string_length_data (s : String) : s.length = s.data.length := rfl

lemma zfill_of_le (s : String) (w : Nat) (h : w ≤ s.length) : zfill s w = s := by
  unfold zfill
  rw [if_pos h]

lemma zfill_digits (s : String) (w : Nat)
    (h1 : ∀ c ∈ s.data, c.isDigit = true) (h2 : s.length ≤ w) :
    (zfill s w).length = w ∧ ∀ c ∈ (zfill s w).data, c.isDigit = true := by
  unfold zfill
  by_cases hle : w ≤ s.length
  · rw [if_pos hle]
    exact ⟨Nat.le_antisymm h2 hle, h1⟩
  · rw [if_neg hle]
    have hhead : (s.data.headD '0').isDigit = true := by
      cases hd : s.data with
      | nil => decide
      | cons a rest =>
        exact h1 a (by rw [hd]; exact List.mem_cons_self a rest)
    have hsign : ¬(s.data.headD '0' = '+' ∨ s.data.headD '0' = '-') := by
      rintro (hp | hp) <;> rw [hp] at hhead <;> simp at hhead
    rw [if_neg hsign]
    constructor
    · rw [string_length_mk, List.length_append, List.length_replicate,
        ← string_length_data]
      omega
    · intro c hc
      rw [show (String.mk (List.replicate (w - s.length) '0' ++ s.data)).data
          = List.replicate (w - s.length) '0' ++ s.data from rfl] at hc
      rcases List.mem_append.mp hc with hrep | hmem
      · rw [List.eq_of_mem_replicate hrep]
        decide
      · exact h1 c hmem

lemma endsWithDot0_false_of_digits (l : List Char)
    (h : ∀ c ∈ l, c.isDigit = true) : endsWithDot0 l = false := by
  unfold endsWithDot0
  cases hr : l.reverse with
  | nil => rfl
  | cons c0 t =>
    cases t with
    | nil => rfl
    | cons c1 t2 =>
      have hc1 : c1 ∈ l := by
        rw [← List.mem_reverse, hr]
        exact List.mem_cons_of_mem c0 (List.mem_cons_self c1 t2)
      have : c1.isDigit = true := h c1 hc1
      have hne : (c1 == '.') = false := by
        cases hb : c1 == '.' with
        | false => rfl
        | true =>
          rw [show c1 = '.' from beq_iff_eq.mp hb] at this
          simp at this
      show (c0 == '0' && c1 == '.') = false
      rw [hne, Bool.and_false]

lemma removePlus_of_digits (s : String)
    (h : ∀ c ∈ s.data, c.isDigit = true) : removePlus s = s := by
  unfold removePlus
  have : s.data.filter (fun c => c != '+') = s.data := by
    rw [List.filter_eq_self]
    intro a ha
    have := h a ha
    cases hb : a == '+' with
    | false => simp [bne, hb]
    | true =>
      rw [show a = '+' from beq_iff_eq.mp hb] at this
      simp at this
  rw [this, string_mk_data]

lemma strippedUPC_text_of_digits (s : String)
    (h : ∀ c ∈ s.data, c.isDigit = true) : strippedUPC (.text s) = s := by
  unfold strippedUPC
  rw [show pyStr (.text s) = s from rfl]
  unfold stripDot0
  rw [endsWithDot0_false_of_digits s.data h]
  rw [if_neg (by simp)]
  exact removePlus_of_digits s h

/-- C1 (amended): for every input row surviving the null-drop whose
raw identifier, after to-text, trailing-".0" strip and "+" removal,
is a digits-only string of at most 12 characters, the normalized
identifier is exactly 12 characters long and digits-only; the
examples fixed to what the code computes: "123.0" normalizes to
"000000000123", "4560+" to "000000004560", and a 12-digit input is
unchanged. -/
theorem upc_normalization_amended (v : CellVal)
    (h1 : ∀ c ∈ (strippedUPC v).data, c.isDigit = true)
    (h2 : (strippedUPC v).length ≤ 12) :
    (normalizeUPC v).length = 12 ∧
    (∀ c ∈ (normalizeUPC v).data, c.isDigit = true) ∧
    normalizeUPC (.text "123.0") = "000000000123" ∧
    normalizeUPC (.text "4560+") = "000000004560" ∧
    normalizeUPC (.text "123456789012") = "123456789012" := by
  have := zfill_digits (strippedUPC v) 12 h1 h2
  exact ⟨this.1, this.2, by decide, by decide, by decide⟩

/-- Witness for C1 (amended) at the raw text identifier "7". -/
theorem upc_normalization_amended_witness :
    (normalizeUPC (.text "7")).length = 12 :=
  (upc_normalization_amended (.text "7") (by decide) (by decide)).1

/-- C1 counterexample: the claim fixes "4560+" to "000000000456", but
the code computes "000000004560" (the "+" is removed, the digit 0 is
kept, and the result is merely left-padded); and a 13-digit raw
identifier yields a 13-character, not 12-character, identifier. -/
theorem upc_normalization_counterexample :
    normalizeUPC (.text "4560+") = "000000004560" ∧
    normalizeUPC (.text "4560+") ≠ "000000000456" ∧
    (normalizeUPC (.text "1234567890123")).length ≠ 12 := by
  decide

/-- C6: normalization is idempotent on canonical identifiers: a
12-character digits-only identifier is mapped to itself. -/
theorem upc_normalization_idempotent (s : String)
    (hlen : s.length = 12) (hdig : ∀ c ∈ s.data, c.isDigit = true) :
    normalizeUPC (.text s) = s := by
  unfold normalizeUPC
  rw [strippedUPC_text_of_digits s hdig]
  exact zfill_of_le s 12 (le_of_eq hlen.symm)

/-- Witness for C6 at a concrete canonical identifier. -/
theorem upc_normalization_idempotent_witness :
    normalizeUPC (.text "000000000123") = "000000000123" :=
  upc_normalization_idempotent "000000000123" (by decide) (by decide)

/-- C9: normalization never truncates: when the stripped textual form
is longer than 12 characters, zfill leaves it unchanged and the
resulting identifier keeps its full length, exceeding 12. -/
theorem upc_normalization_no_truncation (v : CellVal)
    (h : 12 < (strippedUPC v).length) :
    normalizeUPC v = strippedUPC v ∧ 12 < (normalizeUPC v).length := by
  have he : normalizeUPC v = strippedUPC v :=
    zfill_of_le (strippedUPC v) 12 (Nat.le_of_lt h)
  exact ⟨he, by rw [he]; exact h⟩

/-- Witness for C9 at a 13-digit raw identifier. -/
theorem upc_normalization_no_truncation_witness :
    normalizeUPC (.text "1234567890123") = strippedUPC (.text "1234567890123") ∧
    12 < (normalizeUPC (.text "1234567890123")).length :=
  upc_normalization_no_truncation (.text "1234567890123") (by decide)


lemma sum_map_zero {α : Type} (l : List α) : (l.map (fun _ => (0 : Int))).sum = 0 := by
  induction l with
  | nil => rfl
  | cons a t ih => simp [ih]

lemma sum_map_add {α : Type} (l : List α) (f g : α → Int) :
    (l.map (fun x => f x + g x)).sum = (l.map f).sum + (l.map g).sum := by
  induction l with
  | nil => rfl
  | cons a t ih =>
    simp only [List.map_cons, List.sum_cons, ih]
    omega

lemma sum_if_not_mem {α : Type} [DecidableEq α] (l : List α) (a : α) (f : α → Int)
    (h : a ∉ l) : (l.map (fun x => if a = x then f x else 0)).sum = 0 := by
  induction l with
  | nil => rfl
  | cons b t ih =>
    have hab : a ≠ b := fun he => h (he ▸ List.mem_cons_self b t)
    simp only [List.map_cons, List.sum_cons, if_neg hab]
    rw [ih (fun hm => h (List.mem_cons_of_mem b hm))]
    omega

lemma sum_if_single {α : Type} [DecidableEq α] (l : List α) (a : α) (f : α → Int)
    (hnd : l.Nodup) (hmem : a ∈ l) :
    (l.map (fun x => if a = x then f x else 0)).sum = f a := by
  induction l with
  | nil => exact absurd hmem (List.not_mem_nil a)
  | cons b t ih =>
    rcases List.mem_cons.mp hmem with rfl | hmt
    · simp only [List.map_cons, List.sum_cons]
      rw [sum_if_not_mem t a f (List.nodup_cons.mp hnd).1, add_zero]
      simp
    · have hab : a ≠ b := fun he => (List.nodup_cons.mp hnd).1 (he ▸ hmt)
      simp only [List.map_cons, List.sum_cons, if_neg hab]
      rw [ih (List.nodup_cons.mp hnd).2 hmt, zero_add]

lemma isNull_true_of_not_false {v : CellVal} (h : ¬v.isNull = false) : v.isNull = true := by
  revert h
  cases v.isNull <;> simp

lemma pivotCellSum_cons (r : CleanRecord) (recs : List CleanRecord) (u : String) (b : CellVal) :
    pivotCellSum (r :: recs) u b =
      (if r.box.isNull = false ∧ r.upc = u ∧ r.box = b then r.qty else 0)
        + pivotCellSum recs u b := by
  unfold pivotCellSum pivotRecs
  rw [List.filter_cons]
  by_cases hn : r.box.isNull = false
  · rw [if_pos (by rw [hn]; rfl)]
    rw [List.filter_cons]
    by_cases hub : r.upc = u ∧ r.box = b
    · rw [if_pos (by rw [hub.1, hub.2]; simp)]
      rw [List.map_cons, List.sum_cons, if_pos ⟨hn, hub⟩]
    · rw [if_neg (by
        intro hcond
        rcases Bool.and_eq_true_iff.mp hcond with ⟨h1, h2⟩
        exact hub ⟨beq_iff_eq.mp h1, beq_iff_eq.mp h2⟩)]
      rw [if_neg (by rintro ⟨_, hc⟩; exact hub hc), zero_add]
  · have hn' : r.box.isNull = true := isNull_true_of_not_false hn
    rw [if_neg (by rw [hn']; decide)]
    rw [if_neg (by rintro ⟨hf, _⟩; exact hn hf), zero_add]

lemma sum_if_prop {α : Type} (l : List α) (P : Prop) [Decidable P] (f : α → Int) :
    (l.map (fun x => if P then f x else 0)).sum = if P then (l.map f).sum else 0 := by
  by_cases hP : P
  · simp only [if_pos hP]
  · simp only [if_neg hP, sum_map_zero]

lemma sum_cells_eq (recs : List CleanRecord) (U : List String) (B : List CellVal)
    (hU : U.Nodup) (hB : B.Nodup)
    (hcov : ∀ r ∈ recs, r.box.isNull = false → r.upc ∈ U ∧ r.box ∈ B) :
    (U.map (fun u => (B.map (fun b => pivotCellSum recs u b)).sum)).sum
      = ((recs.filter (fun r => !r.box.isNull)).map (fun r => r.qty)).sum := by
  induction recs with
  | nil =>
    have hc : ∀ u, (B.map (fun b => pivotCellSum [] u b)).sum = 0 := by
      intro u
      have hz : ∀ b, pivotCellSum [] u b = 0 := fun b => rfl
      simp only [hz, sum_map_zero]
    simp only [hc, sum_map_zero]
    rfl
  | cons r rest ih =>
    have hcov' : ∀ x ∈ rest, x.box.isNull = false → x.upc ∈ U ∧ x.box ∈ B :=
      fun x hx => hcov x (List.mem_cons_of_mem r hx)
    have step : ∀ u, (B.map (fun b => pivotCellSum (r :: rest) u b)).sum
        = (B.map (fun b =>
            if r.box.isNull = false ∧ r.upc = u ∧ r.box = b then r.qty else 0)).sum
          + (B.map (fun b => pivotCellSum rest u b)).sum := by
      intro u
      simp only [pivotCellSum_cons]
      exact sum_map_add B _ _
    simp only [step]
    rw [sum_map_add U _ _, ih hcov']
    by_cases hn : r.box.isNull = false
    · obtain ⟨hu, hb⟩ := hcov r (List.mem_cons_self r rest) hn
      have hinner : ∀ u, (B.map (fun b =>
          if r.box.isNull = false ∧ r.upc = u ∧ r.box = b then r.qty else 0)).sum
          = if r.upc = u then r.qty else 0 := by
        intro u
        have hcond : ∀ b, (if r.box.isNull = false ∧ r.upc = u ∧ r.box = b then r.qty else 0)
            = if r.upc = u then (if r.box = b then r.qty else 0) else 0 := by
          intro b
          by_cases h1 : r.upc = u
          · by_cases h2 : r.box = b
            · rw [if_pos ⟨hn, h1, h2⟩, if_pos h1, if_pos h2]
            · rw [if_neg (by rintro ⟨_, _, hc⟩; exact h2 hc), if_pos h1, if_neg h2]
          · rw [if_neg (by rintro ⟨_, hc, _⟩; exact h1 hc), if_neg h1]
        simp only [hcond]
        rw [sum_if_prop B (r.upc = u) _]
        by_cases h1 : r.upc = u
        · rw [if_pos h1, if_pos h1, sum_if_single B r.box (fun _ => r.qty) hB hb]
        · rw [if_neg h1, if_neg h1]
      simp only [hinner]
      rw [sum_if_single U r.upc (fun _ => r.qty) hU hu]
      rw [List.filter_cons, if_pos (by rw [hn]; rfl)]
      simp only [List.map_cons, List.sum_cons]
    · have hn' : r.box.isNull = true := isNull_true_of_not_false hn
      have hz : ∀ u, (B.map (fun b =>
          if r.box.isNull = false ∧ r.upc = u ∧ r.box = b then r.qty else 0)).sum = 0 := by
        intro u
        have hc : ∀ b, (if r.box.isNull = false ∧ r.upc = u ∧ r.box = b then r.qty else 0)
            = 0 := by
          intro b
          rw [if_neg (by rintro ⟨hf, _⟩; exact hn hf)]
        simp only [hc, sum_map_zero]
      simp only [hz, sum_map_zero]
      rw [List.filter_cons, if_neg (by simp [hn'])]
      omega

lemma pivotDisplayCell_getD (recs : List CleanRecord) (u : String) (b : CellVal) :
    (pivotDisplayCell recs u b).getD 0 = pivotCellSum recs u b := by
  unfold pivotDisplayCell
  by_cases h : pivotCellSum recs u b = 0
  · rw [if_pos h, h]
    rfl
  · rw [if_neg h]
    rfl

lemma mapExcept_ok {α β : Type} (f : α → Except String β) (g : α → β)
    (hfg : ∀ a b, f a = .ok b → g a = b) :
    ∀ (l : List α) (bs : List β), mapExcept f l = .ok bs → bs = l.map g := by
  intro l
  induction l with
  | nil =>
    intro bs h
    cases h
    rfl
  | cons a l ih =>
    intro bs h
    simp only [mapExcept] at h
    cases hfa : f a with
    | error e =>
      simp only [hfa] at h
      exact Except.noConfusion h
    | ok b =>
      simp only [hfa] at h
      cases hml : mapExcept f l with
      | error e =>
        simp only [hml] at h
        exact Except.noConfusion h
      | ok bs2 =>
        simp only [hml] at h
        have hb : b :: bs2 = bs := by
          cases h
          rfl
        rw [← hb, List.map_cons, ← hfg a b hfa, ← ih bs2 hml]

/-- A successful fallible cleaning returns exactly the CleanRecord
set `cleanRows`: the success path of `cleanRowsE` and the list
consumed by the assembly agree. -/
lemma cleanRowsE_ok (t : Table) (recs : List CleanRecord)
    (h : cleanRowsE t = .ok recs) : recs = cleanRows t := by
  unfold cleanRowsE at h
  unfold cleanRows
  refine mapExcept_ok _ (mkRecord t) ?_ (keptRows t) recs h
  intro row rec hok
  cases hc : coerceQty (getCell t row "Sku Units") with
  | error e =>
    simp only [hc] at hok
    exact Except.noConfusion hok
  | ok q =>
    simp only [hc] at hok
    have hrec : ({ upc := normalizeUPC (getCell t row "UPC")
                   box := getCell t row "Box X"
                   qty := q } : CleanRecord) = rec := by
      cases hok
      rfl
    rw [← hrec]
    unfold mkRecord
    rw [hc]
    rfl

lemma mem_pivotUPCs_and_mem_pivotBoxes (recs : List CleanRecord) (r : CleanRecord)
    (hr : r ∈ recs) (hn : r.box.isNull = false) :
    r.upc ∈ pivotUPCs recs ∧ r.box ∈ pivotBoxes recs := by
  have hp : r ∈ pivotRecs recs := by
    unfold pivotRecs
    exact List.mem_filter.mpr ⟨hr, by rw [hn]; rfl⟩
  constructor
  · exact List.mem_dedup.mpr (List.mem_map.mpr ⟨r, hp, rfl⟩)
  · exact List.mem_dedup.mpr (List.mem_map.mpr ⟨r, hp, rfl⟩)

/-- C4 (amended): for every loaded table whose surviving rows all have
non-negative quantities and a non-null box value, the sum of the
numeric cells of the displayed pivot (blank cells counting as
nothing) equals total_qty, and total_boxes equals the number of
distinct box values of the CleanRecord set; both totals are computed
from the CleanRecord set and the zero-blanking display transform
cannot change the displayed-cell sum. The restriction to non-null box
values is forced: a surviving row with a null box cell is counted in
total_qty but enters no pivot cell. -/
theorem pivot_totals_amended (t : Table)
    (hq : ∀ r ∈ cleanRows t, 0 ≤ r.qty)
    (hbox : ∀ r ∈ cleanRows t, r.box.isNull = false) :
    sumPivotDisplayed (cleanRows t) = total_qty (cleanRows t) ∧
    total_boxes (cleanRows t) = ((cleanRows t).map (fun r => r.box)).dedup.length := by
  constructor
  · unfold sumPivotDisplayed
    have hg : ∀ u b, (pivotDisplayCell (cleanRows t) u b).getD 0
        = pivotCellSum (cleanRows t) u b := fun u b => pivotDisplayCell_getD _ u b
    simp only [hg]
    rw [sum_cells_eq (cleanRows t) (pivotUPCs (cleanRows t)) (pivotBoxes (cleanRows t))
      (List.nodup_dedup _) (List.nodup_dedup _)
      (fun r hr hn => mem_pivotUPCs_and_mem_pivotBoxes (cleanRows t) r hr hn)]
    have hfe : (cleanRows t).filter (fun r => !r.box.isNull) = cleanRows t := by
      rw [List.filter_eq_self]
      intro r hr
      rw [hbox r hr]
      rfl
    rw [hfe]
    rfl
  · unfold total_boxes
    have hfe : ((cleanRows t).map (fun r => r.box)).filter (fun v => !v.isNull)
        = (cleanRows t).map (fun r => r.box) := by
      rw [List.filter_eq_self]
      intro v hv
      rcases List.mem_map.mp hv with ⟨r, hr, rfl⟩
      rw [hbox r hr]
      rfl
    rw [hfe]

/-- Witness for C4 (amended) at a one-row table. -/
theorem pivot_totals_amended_witness :
    sumPivotDisplayed (cleanRows (trimCols tblOneRow)) = total_qty (cleanRows (trimCols tblOneRow)) :=
  (pivot_totals_amended (trimCols tblOneRow) (by decide) (by decide)).1

/-- C4 counterexample: a table whose quantities are non-negative
integers but whose single surviving row has a null box cell: the row
is kept (total_qty = 5) yet enters no pivot cell, so the sum of the
pivot cells is 0 and differs from total_qty. -/
theorem pivot_totals_counterexample :
    (cleanRows (trimCols tblNullBox)).map (fun r => r.qty) = [5] ∧
    sumPivotDisplayed (cleanRows (trimCols tblNullBox)) = 0 ∧
    total_qty (cleanRows (trimCols tblNullBox)) = 5 ∧
    sumPivotDisplayed (cleanRows (trimCols tblNullBox))
      ≠ total_qty (cleanRows (trimCols tblNullBox)) := by
  decide

/-- C10: a row with non-null identifier and quantity cells but a null
box cell is retained as a CleanRecord whose box value is null; a
null-box record adds its quantity to total_qty, leaves every part of
the displayed pivot unchanged (null grouping keys enter no cell),
and is not counted by total_boxes. -/
theorem null_box_row_behavior (t : Table) (row : List CellVal)
    (recs : List CleanRecord) (rec : CleanRecord)
    (hmem : row ∈ t.rows)
    (hupc : (getCell t row "UPC").isNull = false)
    (hqty : (getCell t row "Sku Units").isNull = false)
    (hbox : (getCell t row "Box X").isNull = true)
    (hrec : rec.box = CellVal.null) :
    (mkRecord t row ∈ cleanRows t ∧ (mkRecord t row).box.isNull = true) ∧
    total_qty (recs ++ [rec]) = total_qty recs + rec.qty ∧
    pivotDisplayTable (recs ++ [rec]) = pivotDisplayTable recs ∧
    total_boxes (recs ++ [rec]) = total_boxes recs := by
  have hpr : pivotRecs (recs ++ [rec]) = pivotRecs recs := by
    unfold pivotRecs
    rw [List.filter_append]
    have : [rec].filter (fun r => !r.box.isNull) = [] := by
      rw [List.filter_cons]
      rw [if_neg (by rw [hrec]; decide)]
      rfl
    rw [this, List.append_nil]
  refine ⟨⟨?_, ?_⟩, ?_, ?_, ?_⟩
  · unfold cleanRows keptRows
    refine List.mem_map.mpr ⟨row, ?_, rfl⟩
    refine List.mem_filter.mpr ⟨hmem, ?_⟩
    rw [hupc, hqty]
    rfl
  · unfold mkRecord
    rw [show (getCell t row "Box X") = CellVal.null from by
      revert hbox
      cases getCell t row "Box X" <;> simp [CellVal.isNull]]
    rfl
  · unfold total_qty
    rw [List.map_append, List.sum_append]
    have : (List.map (fun r => r.qty) [rec]).sum = rec.qty := by
      simp
    rw [this]
  · unfold pivotDisplayTable pivotUPCs pivotBoxes pivotDisplayCell pivotCellSum
    rw [hpr]
  · unfold total_boxes
    rw [List.map_append, List.filter_append]
    have : ([rec].map (fun r => r.box)).filter (fun v => !v.isNull) = [] := by
      rw [show [rec].map (fun r => r.box) = [rec.box] from rfl, List.filter_cons]
      rw [if_neg (by rw [hrec]; decide)]
      rfl
    rw [this, List.append_nil]

/-- Witness for C10 at a concrete table and record. -/
theorem null_box_row_behavior_witness :
    mkRecord (trimCols tblNullBox) [.text "1", .null, .text "5"]
      ∈ cleanRows (trimCols tblNullBox) ∧
    total_qty ([] ++ [⟨"000000000001", CellVal.null, 5⟩])
      = total_qty [] + (5 : Int) :=
  have h := null_box_row_behavior (trimCols tblNullBox) [.text "1", .null, .text "5"]
    [] ⟨"000000000001", CellVal.null, 5⟩
    (by decide) (by decide) (by decide) (by decide) (by decide)
  ⟨h.1.1, h.2.1⟩

/-- C5: the carton-weight extractor equals the specified collect-bold-
numeric-then-drop-last procedure (List.dropLast leaves the empty list
empty, so the if-guard of the source is redundant); an empty collection yields
the empty sequence; and a missing "Page1_1" sheet degrades to the
empty sequence instead of raising. -/
theorem carton_weight_extraction_correct (sheet : SheetData) (wb : Workbook) :
    cartonWeightsFromSheet sheet = specCartonWeights sheet ∧
    (collectBoldCol7 sheet = [] → cartonWeightsFromSheet sheet = []) ∧
    (lookupSheet wb "Page1_1" = none → extractWeights wb = []) := by
  have h1 : cartonWeightsFromSheet sheet = specCartonWeights sheet := by
    show (if (collectBoldCol7 sheet).isEmpty then collectBoldCol7 sheet
        else (collectBoldCol7 sheet).dropLast) = (collectBoldCol7 sheet).dropLast
    by_cases h : (collectBoldCol7 sheet).isEmpty = true
    · rw [if_pos h, List.isEmpty_iff.mp h]
      rfl
    · rw [if_neg h]
  refine ⟨h1, ?_, ?_⟩
  · intro h
    rw [h1]
    show (collectBoldCol7 sheet).dropLast = []
    rw [h]
    rfl
  · intro h
    unfold extractWeights
    rw [h]

/-- Witness for C5 at a concrete sheet (two bold numeric cells among
ignored ones) and a workbook without a "Page1_1" sheet. -/
theorem carton_weight_extraction_correct_witness :
    cartonWeightsFromSheet sheetSmall = specCartonWeights sheetSmall ∧
    extractWeights wbPlain = [] :=
  ⟨(carton_weight_extraction_correct sheetSmall wbPlain).1,
   (carton_weight_extraction_correct sheetSmall wbPlain).2.2 (by decide)⟩

/-- C7: every row surviving the null-drop has non-null identifier and
quantity cells (a null-quantity row is dropped, never kept with
quantity 0), and the quantity coercion maps the text "5" to the
integer 5 and the non-numeric text "abc" to 0. -/
theorem quantity_coercion_correct (t : Table) (row : List CellVal)
    (h : row ∈ keptRows t) :
    ((getCell t row "UPC").isNull = false ∧ (getCell t row "Sku Units").isNull = false) ∧
    coerceQty (.text "5") = .ok 5 ∧ coerceQty (.text "abc") = .ok 0 := by
  refine ⟨?_, by decide, by decide⟩
  have hb := (List.mem_filter.mp h).2
  rcases Bool.and_eq_true_iff.mp hb with ⟨h1, h2⟩
  constructor
  · cases hh : (getCell t row "UPC").isNull with
    | false => rfl
    | true =>
      rw [hh] at h1
      exact absurd h1 (by decide)
  · cases hh : (getCell t row "Sku Units").isNull with
    | false => rfl
    | true =>
      rw [hh] at h2
      exact absurd h2 (by decide)

/-- Witness for C7 at a concrete kept row. -/
theorem quantity_coercion_correct_witness :
    coerceQty (.text "5") = .ok 5 ∧ coerceQty (.text "abc") = .ok 0 :=
  ⟨(quantity_coercion_correct (trimCols tblOneRow) [.text "7", .num ⟨1, 1⟩, .text "5"]
      (by decide)).2.1,
   (quantity_coercion_correct (trimCols tblOneRow) [.text "7", .num ⟨1, 1⟩, .text "5"]
      (by decide)).2.2⟩

/-- C8: for every loaded workbook missing at least one required
column, the run stops with a schema error naming exactly the missing
columns (in the order of the required-column list) and no output is
produced; in particular a workbook lacking only "Sku Units" reports
exactly ["Sku Units"]. -/
theorem missing_columns_schema_error (wb : Workbook)
    (h : missingColsOf (trimCols wb.main) ≠ []) :
    runPipeline (some wb) = .error (.schemaError (missingColsOf (trimCols wb.main))) ∧
    missingColsOf (trimCols wbNoSkuUnits.main) = ["Sku Units"] ∧
    runPipeline (some wbNoSkuUnits) = .error (.schemaError ["Sku Units"]) := by
  refine ⟨?_, by decide, by decide⟩
  show (if missingColsOf (trimCols wb.main) = [] then runChecked wb
      else .error (.schemaError (missingColsOf (trimCols wb.main))))
    = .error (.schemaError (missingColsOf (trimCols wb.main)))
  rw [if_neg h]

/-- Witness for C8 at the workbook lacking "Sku Units". -/
theorem missing_columns_schema_error_witness :
    runPipeline (some wbNoSkuUnits)
      = .error (.schemaError (missingColsOf (trimCols wbNoSkuUnits.main))) :=
  (missing_columns_schema_error wbNoSkuUnits (by decide)).1

/-- C2 (amended): a load failure and missing required columns abort
the run, and so do two uncaught exceptions: the IntCastingNaNError
of the quantity integer cast (a surviving row whose quantity coerces
to a non-finite value, e.g. the text "inf" on the concrete workbook
wbInfQty, which loads and has all three columns) and a ValueError of
the dimension scan (a matched cell whose X-split parts do not parse
as three floats); every error of the carton-weight extraction is
swallowed (the quantifier puts no condition on the auxiliary sheets,
which may be absent or arbitrary), and whenever both the quantity
cast and the dimension scan succeed the pipeline produces its
output. -/
theorem error_policy_amended (wb : Workbook) (recs : List CleanRecord)
    (ds : List (Frac × Frac × Frac))
    (h1 : missingColsOf (trimCols wb.main) = [])
    (h2 : cleanRowsE (trimCols wb.main) = .ok recs)
    (h3 : scanDims (trimCols wb.main) = .ok ds) :
    runPipeline (some wb) = .ok (assembleOutput wb ds) ∧
    missingColsOf (trimCols wbInfQty.main) = [] ∧
    runPipeline (some wbInfQty) = .error (.qtyCastError "IntCastingNaNError") := by
  refine ⟨?_, by decide, by decide⟩
  show (if missingColsOf (trimCols wb.main) = [] then runChecked wb
      else .error (.schemaError (missingColsOf (trimCols wb.main))))
    = .ok (assembleOutput wb ds)
  rw [if_pos h1]
  unfold runChecked
  rw [h2, h3]

/-- Witness for C2 (amended) at a benign workbook with no auxiliary
sheet. -/
theorem error_policy_amended_witness :
    runPipeline (some wbPlain) = .ok (assembleOutput wbPlain []) :=
  (error_policy_amended wbPlain (cleanRows (trimCols wbPlain.main)) []
    (by decide) (by decide) (by decide)).1

/-- C2 counterexample: a workbook that loads and has all three
required columns, yet whose run aborts with an uncaught ValueError:
the cell text "1.00X2.00X3.00-4" matches the dimension pattern (the
trailing word boundary sits before the dash) but its X-split part
"3.00-4" is rejected by float, and the scan loop has no handler. -/
theorem error_policy_counterexample :
    missingColsOf (trimCols wbDimError.main) = [] ∧
    runPipeline (some wbDimError) = .error (.dimValueError "1.00X2.00X3.00-4") := by
  decide

/-- C3 (amended): whenever a run succeeds and its dimension sequence
is non-empty, the displayed total carton weight is the sum of the
whole extracted weight sequence plus 35, while the value written
into the "Box Dimensions" totals footer is the sum of the weight
sequence truncated to the number of dimension rows (the only part
written into the Carton Weight column) plus 35; the two coincide
whenever the weight sequence is no longer than the dimension
sequence. -/
theorem footer_total_amended (wb : Workbook) (out : RunOutput)
    (h : runPipeline (some wb) = .ok out) (hdims : out.dims ≠ []) :
    out.displayedTotalWeight = out.weights.sum + 35 ∧
    out.dimFooterTotal = some ((out.weights.take out.dims.length).sum + 35) ∧
    (out.weights.length ≤ out.dims.length →
      out.dimFooterTotal = some out.displayedTotalWeight) := by
  have h' : (if missingColsOf (trimCols wb.main) = [] then runChecked wb
      else .error (.schemaError (missingColsOf (trimCols wb.main)))) = .ok out := h
  by_cases hm : missingColsOf (trimCols wb.main) = []
  · rw [if_pos hm] at h'
    unfold runChecked at h'
    cases hc : cleanRowsE (trimCols wb.main) with
    | error e =>
      rw [hc] at h'
      exact absurd h' (by simp)
    | ok recs =>
      rw [hc] at h'
      cases hs : scanDims (trimCols wb.main) with
      | error e =>
        rw [hs] at h'
        exact absurd h' (by simp)
      | ok ds =>
        rw [hs] at h'
        have hout : assembleOutput wb ds = out := by
          cases h'
          rfl
        subst hout
        have hne : ¬(ds.isEmpty = true) := by
          intro he
          exact hdims (List.isEmpty_iff.mp he)
        have hfoot : (assembleOutput wb ds).dimFooterTotal
            = some (((extractWeights wb).take ds.length).sum + 35) := by
          show (if ds.isEmpty then none
              else some (((extractWeights wb).take ds.length).sum + 35))
            = some (((extractWeights wb).take ds.length).sum + 35)
          rw [if_neg hne]
        refine ⟨rfl, hfoot, ?_⟩
        intro hlen
        rw [hfoot]
        have htake : (extractWeights wb).take ds.length = extractWeights wb :=
          List.take_of_length_le hlen
        rw [htake]
        rfl
  · rw [if_neg hm] at h'
    exact absurd h' (by simp)

/-- Witness for C3 (amended): a run whose single weight fits into the
single dimension row, so footer and displayed total coincide. -/
theorem footer_total_amended_witness :
    (assembleOutput wbFittingWeights [(⟨1, 1⟩, ⟨2, 1⟩, ⟨3, 1⟩)]).dimFooterTotal
      = some (assembleOutput wbFittingWeights [(⟨1, 1⟩, ⟨2, 1⟩, ⟨3, 1⟩)]).displayedTotalWeight :=
  (footer_total_amended wbFittingWeights
    (assembleOutput wbFittingWeights [(⟨1, 1⟩, ⟨2, 1⟩, ⟨3, 1⟩)])
    (by decide) (by decide)).2.2 (by decide)

/-- C3 counterexample: a run with weight sequence [10, 20] but a
single dimension row: the displayed total is 10 + 20 + 35 = 65 while
the footer re-sums only the written Carton Weight column, giving
10 + 35 = 45, so the footer does not carry the displayed value. -/
theorem footer_total_counterexample :
    runPipeline (some wbMoreWeights)
      = .ok (assembleOutput wbMoreWeights [(⟨1, 1⟩, ⟨2, 1⟩, ⟨3, 1⟩)]) ∧
    (assembleOutput wbMoreWeights [(⟨1, 1⟩, ⟨2, 1⟩, ⟨3, 1⟩)]).weights
      = [⟨10, 1⟩, ⟨20, 1⟩] ∧
    (assembleOutput wbMoreWeights [(⟨1, 1⟩, ⟨2, 1⟩, ⟨3, 1⟩)]).dims ≠ [] ∧
    (assembleOutput wbMoreWeights [(⟨1, 1⟩, ⟨2, 1⟩, ⟨3, 1⟩)]).displayedTotalWeight
      = ⟨65, 1⟩ ∧
    (assembleOutput wbMoreWeights [(⟨1, 1⟩, ⟨2, 1⟩, ⟨3, 1⟩)]).dimFooterTotal
      = some ⟨45, 1⟩ ∧
    (⟨65, 1⟩ : Frac) ≠ (⟨45, 1⟩ : Frac) := by
  decide
